import Mathlib

/-!
Verification of the configuration loader in `src/pkg/conf/conf.go`
(repository Cloudreve-rclone).

The file shallowly embeds the parts of `conf.go` that the checked claims
are about:

* the `captcha` record and the `validator.v9` constraints declared in its
  struct tags (`gte=0`, `lte=3`, ...), together with the panic-on-failure
  behaviour of `mapSection` / `Init`;
* the file-materialization phase of `Init` (create the config file when the
  path is empty or the file is absent, substitute two freshly generated
  64-character secrets into the default template, write, close);
* `initRCloneBind`: the platform gate, the `"UNSET"` sentinel, the
  registration of the rclone config path, the bind loop with Go
  `strings.SplitN(kv, ":", 2)` semantics, `filepath.Abs` resolution, and
  the atomic installation of the bind-point table into `util.OS`.

External collaborators that live outside `src/` (package `util`, the
`rclonefs` driver, `filepath.Abs`, the randomness source) are modelled as
explicit parameters or, where the spec describes them, as definitions
marked `Modelled from the spec`.
-/

namespace Conf

/-! ## Outcomes

`util.Log().Panic` terminates the process, and an out-of-range slice index
raises a runtime panic.  Both are fatal: a step either crashes the process
or returns a value. -/

/-- Result of a step that can terminate the process (a `util.Log().Panic`
call or a Go runtime panic such as an out-of-range slice index). -/
inductive Outcome (α : Type) where
  | crashed : Outcome α
  | ok : α → Outcome α
deriving DecidableEq

/-! ## The `captcha` record and its validation (conf.go lines 54-66)

Field types follow the Go struct: `int` fields become `Int`, `bool` fields
become `Bool`.  The `validate` struct tags are interpreted with the
documented `validator.v9` semantics: `gte=n` is `n ≤ v`, `lte=n` is
`v ≤ n`, `gt=n` is `n < v`; fields without a tag are unconstrained. -/

/-- The `captcha` configuration record of conf.go (lines 54-66). -/
structure captcha where
  Height : Int
  Width : Int
  Mode : Int
  ComplexOfNoiseText : Int
  ComplexOfNoiseDot : Int
  IsShowHollowLine : Bool
  IsShowNoiseDot : Bool
  IsShowNoiseText : Bool
  IsShowSlimeLine : Bool
  IsShowSineLine : Bool
  CaptchaLen : Int
deriving DecidableEq

/-- The conjunction of the `validate` struct tags of `captcha`:
`Height gte=0`, `Width gte=0`, `Mode gte=0,lte=3`,
`ComplexOfNoiseText gte=0,lte=2`, `ComplexOfNoiseDot gte=0,lte=2`,
`CaptchaLen gt=0`; the five `Bool` fields carry no tag.
This is `validate.Struct(confStruct)` of `mapSection` specialized to the
`captcha` record: it returns success exactly when every tagged field
satisfies its constraint. -/
def validateCaptcha (c : captcha) : Bool :=
  decide (0 ≤ c.Height) && decide (0 ≤ c.Width) &&
  (decide (0 ≤ c.Mode) && decide (c.Mode ≤ 3)) &&
  (decide (0 ≤ c.ComplexOfNoiseText) && decide (c.ComplexOfNoiseText ≤ 2)) &&
  (decide (0 ≤ c.ComplexOfNoiseDot) && decide (c.ComplexOfNoiseDot ≤ 2)) &&
  decide (0 < c.CaptchaLen)

/-- The `mapSection` / `Init` treatment of the Captcha section: after the
ini values are mapped onto the record, `mapSection` runs the validator and
returns an error on any constraint violation, which `Init` turns into
`util.Log().Panic` (conf.go lines 149-154, 167-181).  The ini `MapTo` step
is the external go-ini library; the record it produced is the input here. -/
def mapSectionCaptcha (c : captcha) : Outcome captcha :=
  if validateCaptcha c then Outcome.ok c else Outcome.crashed

/-! ## Default content and secret generation (conf.go lines 101-130)

`util.RandStringRunes` and `util.Replace` live in package `util`, which is
part of this repository but not under `src/`; they are modelled from the
spec.  `util.CreatNestedFile` / `WriteString` / `Close` are modelled as
operations on an abstract file store (path to content), with the success of
creation and of writing supplied as environment booleans. -/

/-- Modelled from the spec: the alphanumeric alphabet that
`util.RandStringRunes` (package `util`, not under `src/`) draws characters
from. -/
def letterRunes : List Char :=
  "1234567890abcdefghijklmnopqrstuvwxyzABCDEFGHIJKLMNOPQRSTUVWXYZ".toList

/-- Modelled from the spec: `util.RandStringRunes n` (package `util`, not
under `src/`) returns a freshly generated random string of exactly `n`
characters drawn from an alphanumeric alphabet.  The randomness source is
abstracted as a `seed` supplied by the environment. -/
def RandStringRunes (seed : Nat) (n : Nat) : String :=
  String.mk ((List.range n).map
    (fun i => letterRunes.getD ((seed + 37 * i) % letterRunes.length) 'a'))

/-- Whether `l` begins with the pattern `p` (character-list version of a
string prefix test, used by the replacement model). -/
def leadsWith : List Char → List Char → Bool
  | [], _ => true
  | _ :: _, [] => false
  | p :: ps, c :: cs => p == c && leadsWith ps cs

/-- Replace every occurrence of `pat` in `s` by `rep`, scanning left to
right (the behaviour of Go `strings.Replace(s, pat, rep, -1)`). -/
def replaceAll (pat rep : List Char) : List Char → List Char
  | [] => []
  | c :: cs =>
    if !pat.isEmpty && leadsWith pat (c :: cs) then
      rep ++ replaceAll pat rep (cs.drop (pat.length - 1))
    else
      c :: replaceAll pat rep cs
termination_by l => l.length
decreasing_by
  · simp only [List.length_cons, List.length_drop]
    omega
  · simp

/-- Modelled from the spec: `util.Replace` (package `util`, not under
`src/`) applies each placeholder-to-value substitution of the table to the
string. -/
def Replace (table : List (String × String)) (s : String) : String :=
  table.foldl (fun acc kv => String.mk (replaceAll kv.1.toList kv.2.toList acc.toList)) s

/-- The `defaultConf` template constant of conf.go (lines 101-106). -/
def defaultConf : String :=
  "[System]\nMode = master\nListen = :5212\nSessionSecret = \x7bSessionSecret\x7d\nHashIDSalt = \x7bHashIDSalt\x7d\n"

/-- `util.Exists(path)` over the abstract file store: the file exists when
the store holds content for the path. -/
def utilExists (files : String → Option String) (path : String) : Bool :=
  (files path).isSome

/-- Point update of the abstract file store. -/
def writeFile (files : String → Option String) (path content : String) :
    String → Option String :=
  fun q => if q = path then some content else files q

/-- Environment of the file-materialization phase of `Init`: whether
`util.CreatNestedFile` and `f.WriteString` succeed, and the seeds of the
two `util.RandStringRunes(64)` calls. -/
structure InitEnv where
  createOk : Bool
  writeOk : Bool
  seedSessionSecret : Nat
  seedHashIDSalt : Nat
deriving DecidableEq

/-- Observable result of the file-materialization phase of `Init`: the file
store afterwards, whether a file handle was opened (`util.CreatNestedFile`
succeeded), whether `f.Close()` was executed, and whether the process was
terminated by `util.Log().Panic`. -/
structure InitFileOut where
  files : String → Option String
  opened : Bool
  closed : Bool
  fatal : Bool

/-- The file-materialization phase of `Init` (conf.go lines 109-130).
When the path is empty or no file exists there, the default template is
instantiated with the two fresh secrets and written to a newly created
file; creation or write failure is `util.Log().Panic` (process exit, so the
remaining statements, including `f.Close()`, never run).  Creation makes
the file exist empty before the write fills it.  When a file already
exists at a non-empty path, nothing is done. -/
def Init (env : InitEnv) (path : String) (files : String → Option String) :
    InitFileOut :=
  if path = "" || !utilExists files path then
    let confContent := Replace
      [("\x7bSessionSecret\x7d", RandStringRunes env.seedSessionSecret 64),
       ("\x7bHashIDSalt\x7d", RandStringRunes env.seedHashIDSalt 64)]
      defaultConf
    if !env.createOk then
      { files := files, opened := false, closed := false, fatal := true }
    else if !env.writeOk then
      { files := writeFile files path "", opened := true, closed := false, fatal := true }
    else
      { files := writeFile files path confContent, opened := true, closed := true,
        fatal := false }
  else
    { files := files, opened := false, closed := false, fatal := false }

/-! ## The remote-bind step `initRCloneBind` (conf.go lines 184-219)

The step reads `runtime.GOOS`, `RCloneConfig.Config`, `RCloneConfig.Binds`,
the existence of the rclone config file, and `filepath.Abs`; it mutates
`rclonefs.SetConfigPath`'s registered path and the process-wide filesystem
`util.OS`, and logs warnings.  Those inputs form `BindEnv` and the mutable
pieces form `SysState`.  `util.OS = none` models the startup default (the
plain local filesystem); installing `rclonefs.NewBindPathFs(bindPoints)`
sets it to `some` table. -/

/-- A filesystem-capability handle: `afero.NewOsFs()` for the root, or
`rclonefs.NewRCloneFs(target)` for a remote target string. -/
inductive Fs where
  | osFs : Fs
  | rcloneFs (target : String) : Fs
deriving DecidableEq

/-- The warnings `initRCloneBind` can log via `util.Log().Warning`. -/
inductive Warning where
  | unsupportedOS (goos : String)
  | rcloneConfigNotFound (path : String)
  | absFailed (localPath : String)
  | malformedBind (entry : String)
deriving DecidableEq

/-- The process-wide state `initRCloneBind` can mutate: the filesystem
abstraction `util.OS` (`none` = the startup default local filesystem,
`some table` = an installed `NewBindPathFs` table), the config path
registered with `rclonefs.SetConfigPath`, and the warning log. -/
structure SysState where
  OS : Option (List (String × Fs))
  rcloneConfigPath : Option String
  warnings : List Warning
deriving DecidableEq

/-- The inputs `initRCloneBind` reads: `runtime.GOOS`, the `rclone` record
(`Config`, `Binds`), the result of `util.Exists(RCloneConfig.Config)`, and
`filepath.Abs` (returning `none` on resolution error). -/
structure BindEnv where
  goos : String
  Config : String
  Binds : List String
  configExists : Bool
  abs : String → Option String

/-- Split a character list at its first colon, when one exists. -/
def splitFirstColon : List Char → Option (List Char × List Char)
  | [] => none
  | c :: cs =>
    if c = ':' then some ([], cs)
    else
      match splitFirstColon cs with
      | some (a, b) => some (c :: a, b)
      | none => none

/-- Go `strings.SplitN(s, ":", 2)`: a singleton when `s` has no colon,
otherwise the part before the first colon and the unsplit remainder (which
may itself contain colons). -/
def SplitN2 (s : String) : List String :=
  match splitFirstColon s.toList with
  | some (a, b) => [String.mk a, String.mk b]
  | none => [s]

/-- Whether a bind entry contains the colon separator. -/
def hasColon (s : String) : Bool :=
  s.toList.any (fun c => c == ':')

/-- Go map assignment `m[k] = v`: replace the value when the key is
present, append the pair otherwise. -/
def mapInsert (m : List (String × Fs)) (k : String) (v : Fs) : List (String × Fs) :=
  if m.any (fun p => p.1 == k) then
    m.map (fun p => if p.1 == k then (k, v) else p)
  else
    m ++ [(k, v)]

/-- The bind loop of `initRCloneBind` (conf.go lines 204-216) over the
remaining entries, carrying the `bindPoints` table and the warning log.
A well-formed entry (`SplitN` yields two parts) is resolved with
`filepath.Abs`: on success the target is bound, on failure the entry is
warned about and skipped.  A malformed entry warns and returns from the
whole function, yielding no table. -/
def processBinds (abs : String → Option String) :
    List String → List (String × Fs) → List Warning →
    Option (List (String × Fs)) × List Warning
  | [], acc, ws => (some acc, ws)
  | kv :: rest, acc, ws =>
    match SplitN2 kv with
    | [a, b] =>
      match abs a with
      | some target => processBinds abs rest (mapInsert acc target (Fs.rcloneFs b)) ws
      | none => processBinds abs rest acc (ws ++ [Warning.absFailed a])
    | _ => (none, ws ++ [Warning.malformedBind kv])

/-- `initRCloneBind` (conf.go lines 184-219).  On a non-linux platform it
warns and returns.  Otherwise it reads `Binds[0]` — a Go runtime panic when
the slice is empty — and returns silently on the `"UNSET"` sentinel.  With
the rclone config file present it registers the config path, builds the
bind-point table starting from the root entry, and installs the table into
`util.OS` only when the loop over all entries completes; a missing config
file warns and returns. -/
def initRCloneBind (env : BindEnv) (s : SysState) : Outcome SysState :=
  if env.goos ≠ "linux" then
    Outcome.ok { s with warnings := s.warnings ++ [Warning.unsupportedOS env.goos] }
  else
    match env.Binds with
    | [] => Outcome.crashed
    | b0 :: _ =>
      if b0 = "UNSET" then Outcome.ok s
      else if env.configExists then
        let s1 : SysState := { s with rcloneConfigPath := some env.Config }
        match processBinds env.abs env.Binds [("/", Fs.osFs)] s1.warnings with
        | (some table, ws) => Outcome.ok { s1 with OS := some table, warnings := ws }
        | (none, ws) => Outcome.ok { s1 with warnings := ws }
      else
        Outcome.ok { s with warnings := s.warnings ++ [Warning.rcloneConfigNotFound env.Config] }

/-! ## Helper lemmas -/

/-- A colon-free character list has no split point. -/
lemma splitFirstColon_of_no_colon :
    ∀ l : List Char, l.any (fun c => c == ':') = false → splitFirstColon l = none
  | [], _ => rfl
  | c :: cs, h => by
    simp only [List.any_cons, Bool.or_eq_false_iff] at h
    have hc : ¬c = ':' := by simpa using h.1
    simp only [splitFirstColon, if_neg hc]
    rw [splitFirstColon_of_no_colon cs h.2]

/-- A character list containing a colon has a split point. -/
lemma splitFirstColon_of_colon :
    ∀ l : List Char, l.any (fun c => c == ':') = true → splitFirstColon l ≠ none
  | c :: cs, h => by
    by_cases hc : c = ':'
    · subst hc
      simp [splitFirstColon]
    · have hcs : cs.any (fun c => c == ':') = true := by
        simpa [hc] using h
      have := splitFirstColon_of_colon cs hcs
      simp only [splitFirstColon, if_neg hc]
      cases hsp : splitFirstColon cs with
      | none => exact absurd hsp this
      | some p => simp

/-- Go `SplitN` on a colon-free entry yields the singleton of the entry. -/
lemma SplitN2_of_not_hasColon (s : String) (h : hasColon s = false) :
    SplitN2 s = [s] := by
  unfold hasColon at h
  unfold SplitN2
  rw [splitFirstColon_of_no_colon s.toList h]

/-- Go `SplitN` on an entry containing a colon yields exactly two parts. -/
lemma SplitN2_of_hasColon (s : String) (h : hasColon s = true) :
    ∃ a b, SplitN2 s = [a, b] := by
  unfold hasColon at h
  have hne := splitFirstColon_of_colon s.toList h
  cases hsp : splitFirstColon s.toList with
  | none => exact absurd hsp hne
  | some p =>
    obtain ⟨a, b⟩ := p
    refine ⟨String.mk a, String.mk b, ?_⟩
    unfold SplitN2
    rw [hsp]

/-- Warnings already logged survive the rest of the bind loop. -/
lemma processBinds_warn_mono (abs : String → Option String) :
    ∀ (l : List String) (acc : List (String × Fs)) (ws : List Warning) (w : Warning),
      w ∈ ws → w ∈ (processBinds abs l acc ws).2
  | [], _, _, _, hw => hw
  | kv :: rest, acc, ws, w, hw => by
    by_cases hc : hasColon kv = true
    · obtain ⟨a, b, hab⟩ := SplitN2_of_hasColon kv hc
      simp only [processBinds, hab]
      cases habs : abs a with
      | some t => exact processBinds_warn_mono abs rest _ ws w hw
      | none => exact processBinds_warn_mono abs rest acc _ w (by simp [hw])
    · have hkv := SplitN2_of_not_hasColon kv (by simpa using hc)
      simp only [processBinds, hkv]
      simp [hw]

/-- A malformed entry anywhere in the remaining bind list makes the loop
return no table, and a malformed-entry warning for some colon-free entry of
the list is logged. -/
lemma processBinds_abort (abs : String → Option String) :
    ∀ (l : List String) (acc : List (String × Fs)) (ws : List Warning),
      (∃ kv ∈ l, hasColon kv = false) →
      (processBinds abs l acc ws).1 = none ∧
        ∃ kv, hasColon kv = false ∧
          Warning.malformedBind kv ∈ (processBinds abs l acc ws).2
  | [], _, _, h => by simp at h
  | kv :: rest, acc, ws, h => by
    by_cases hc : hasColon kv = true
    · obtain ⟨kv', hm, hc'⟩ := h
      have hm' : kv' ∈ rest := by
        rcases List.mem_cons.mp hm with heq | hr
        · rw [heq] at hc'
          rw [hc] at hc'
          cases hc'
        · exact hr
      obtain ⟨a, b, hab⟩ := SplitN2_of_hasColon kv hc
      simp only [processBinds, hab]
      cases habs : abs a with
      | some t => exact processBinds_abort abs rest _ ws ⟨kv', hm', hc'⟩
      | none => exact processBinds_abort abs rest acc _ ⟨kv', hm', hc'⟩
    · have hcf : hasColon kv = false := by simpa using hc
      have hkv := SplitN2_of_not_hasColon kv hcf
      simp only [processBinds, hkv]
      refine ⟨?_, kv, hcf, ?_⟩ <;> simp

/-- When every remaining entry contains a colon, the loop completes and
yields a table. -/
lemma processBinds_complete (abs : String → Option String) :
    ∀ (l : List String) (acc : List (String × Fs)) (ws : List Warning),
      (∀ kv ∈ l, hasColon kv = true) →
      ∃ t, (processBinds abs l acc ws).1 = some t
  | [], acc, _, _ => ⟨acc, rfl⟩
  | kv :: rest, acc, ws, h => by
    obtain ⟨a, b, hab⟩ := SplitN2_of_hasColon kv (h kv (List.mem_cons_self kv rest))
    have hrest : ∀ kv ∈ rest, hasColon kv = true :=
      fun kv' hm => h kv' (List.mem_cons_of_mem kv hm)
    simp only [processBinds, hab]
    cases habs : abs a with
    | some t => exact processBinds_complete abs rest _ ws hrest
    | none => exact processBinds_complete abs rest acc _ hrest

/-- A well-formed entry whose local part fails to resolve leaves its
warning in the loop's log. -/
lemma processBinds_absFail (abs : String → Option String) :
    ∀ (l : List String) (acc : List (String × Fs)) (ws : List Warning)
      (a b kv : String),
      (∀ kv ∈ l, hasColon kv = true) → kv ∈ l → SplitN2 kv = [a, b] →
      abs a = none →
      Warning.absFailed a ∈ (processBinds abs l acc ws).2
  | [], _, _, _, _, _, _, hm, _, _ => by simp at hm
  | kv0 :: rest, acc, ws, a, b, kv, hall, hm, hsplit, habs => by
    rcases List.mem_cons.mp hm with heq | hr
    · subst heq
      simp only [processBinds, hsplit, habs]
      exact processBinds_warn_mono abs rest acc _ _ (by simp)
    · have hrest : ∀ kv ∈ rest, hasColon kv = true :=
        fun kv' hm' => hall kv' (List.mem_cons_of_mem kv0 hm')
      obtain ⟨a0, b0, hab0⟩ :=
        SplitN2_of_hasColon kv0 (hall kv0 (List.mem_cons_self kv0 rest))
      simp only [processBinds, hab0]
      cases habs0 : abs a0 with
      | some t => exact processBinds_absFail abs rest _ ws a b kv hrest hr hsplit habs
      | none => exact processBinds_absFail abs rest acc _ a b kv hrest hr hsplit habs

/-- The generated secret has exactly the requested number of characters. -/
lemma RandStringRunes_length (seed n : Nat) : (RandStringRunes seed n).length = n := by
  simp [RandStringRunes, String.length]

/-! ## Claim theorems -/

/-- C1: a Captcha record passes `mapSection` exactly when validation
accepts it, and validation accepts exactly the records whose fields meet
their declared constraints, boundary-inclusive: in particular the `Mode`
field is accepted for every integer with `0 ≤ Mode ≤ 3` and rejected for
every value outside that range.  So after initialization maps the section
successfully, the record satisfies all of its declared field
constraints. -/
theorem captcha_validation_range (c : captcha) :
    (mapSectionCaptcha c = Outcome.ok c ↔ validateCaptcha c = true) ∧
    (validateCaptcha c = true ↔
      (0 ≤ c.Height ∧ 0 ≤ c.Width ∧ (0 ≤ c.Mode ∧ c.Mode ≤ 3) ∧
       (0 ≤ c.ComplexOfNoiseText ∧ c.ComplexOfNoiseText ≤ 2) ∧
       (0 ≤ c.ComplexOfNoiseDot ∧ c.ComplexOfNoiseDot ≤ 2) ∧
       0 < c.CaptchaLen)) := by
  constructor
  · unfold mapSectionCaptcha
    by_cases h : validateCaptcha c = true
    · simp [h]
    · simp [h]
  · unfold validateCaptcha
    simp only [Bool.and_eq_true, decide_eq_true_eq, and_assoc]

/-- C6: when a configuration file already exists at a non-empty path,
`Init` leaves the whole file store unchanged — the existing content (and
so its secret values) is neither overwritten nor regenerated, and no fatal
exit occurs in the materialization phase. -/
theorem Init_existing_file_untouched (env : InitEnv) (path : String)
    (files : String → Option String) (c : String)
    (hp : path ≠ "") (hf : files path = some c) :
    (Init env path files).files = files ∧
    (Init env path files).files path = some c ∧
    (Init env path files).fatal = false := by
  unfold Init utilExists
  rw [hf]
  simp [hp, hf]

/-- Witness for C6 at a concrete store holding a config file. -/
theorem Init_existing_file_untouched_witness :
    (Init ⟨true, true, 0, 1⟩ "conf.ini"
        (fun q => if q = "conf.ini" then some "[System]\nMode = master\n" else none)).files =
      (fun q => if q = "conf.ini" then some "[System]\nMode = master\n" else none) ∧
    (Init ⟨true, true, 0, 1⟩ "conf.ini"
        (fun q => if q = "conf.ini" then some "[System]\nMode = master\n" else none)).files
        "conf.ini" = some "[System]\nMode = master\n" ∧
    (Init ⟨true, true, 0, 1⟩ "conf.ini"
        (fun q => if q = "conf.ini" then some "[System]\nMode = master\n" else none)).fatal =
      false :=
  Init_existing_file_untouched _ _ _ _ (by decide) rfl

/-- C7: when no file exists at the path and creation and writing succeed,
`Init` creates the file and writes the default template with the
`SessionSecret` and `HashIDSalt` placeholders each replaced by a freshly
generated random string of exactly 64 characters. -/
theorem Init_absent_file_creates (env : InitEnv) (path : String)
    (files : String → Option String)
    (habs : files path = none) (hcr : env.createOk = true)
    (hwr : env.writeOk = true) :
    (Init env path files).files path =
      some (Replace
        [("\x7bSessionSecret\x7d", RandStringRunes env.seedSessionSecret 64),
         ("\x7bHashIDSalt\x7d", RandStringRunes env.seedHashIDSalt 64)]
        defaultConf) ∧
    (RandStringRunes env.seedSessionSecret 64).length = 64 ∧
    (RandStringRunes env.seedHashIDSalt 64).length = 64 ∧
    (Init env path files).fatal = false := by
  unfold Init utilExists
  rw [habs, hcr, hwr]
  simp [writeFile, RandStringRunes_length]

/-- Witness for C7 at a concrete empty store and concrete seeds. -/
theorem Init_absent_file_creates_witness :
    (Init ⟨true, true, 5, 17⟩ "conf.ini" (fun _ => none)).files "conf.ini" =
      some (Replace
        [("\x7bSessionSecret\x7d", RandStringRunes 5 64),
         ("\x7bHashIDSalt\x7d", RandStringRunes 17 64)] defaultConf) ∧
    (RandStringRunes 5 64).length = 64 ∧
    (RandStringRunes 17 64).length = 64 ∧
    (Init ⟨true, true, 5, 17⟩ "conf.ini" (fun _ => none)).fatal = false :=
  Init_absent_file_creates _ _ _ rfl rfl rfl

/-- C8 counterexample: with the file absent, creation succeeding and the
write failing, `Init` opens the file handle, terminates fatally, and the
close operation is never performed — refuting guaranteed close on every
exit path. -/
theorem Init_write_failure_skips_close :
    (Init ⟨true, false, 0, 0⟩ "conf.ini" (fun _ => none)).opened = true ∧
    (Init ⟨true, false, 0, 0⟩ "conf.ini" (fun _ => none)).closed = false ∧
    (Init ⟨true, false, 0, 0⟩ "conf.ini" (fun _ => none)).fatal = true :=
  ⟨rfl, rfl, rfl⟩

/-- C8 (amended): the opened configuration file handle is closed exactly
on the successful materialization path — file absent (or empty path),
creation and write both succeeding; on the error paths the process
terminates fatally via `util.Log().Panic` before any close is performed. -/
theorem Init_close_characterization (env : InitEnv) (path : String)
    (files : String → Option String) :
    ((Init env path files).closed = true ↔
      ((path = "" ∨ files path = none) ∧ env.createOk = true ∧
        env.writeOk = true)) ∧
    ((Init env path files).fatal = true ↔
      ((path = "" ∨ files path = none) ∧
        (env.createOk = false ∨ env.writeOk = false))) := by
  obtain ⟨co, wo, s1, s2⟩ := env
  unfold Init utilExists
  by_cases hp : path = "" <;> cases hf : files path <;> cases co <;> cases wo <;>
    simp [hp, hf]

/-- Unfolding of `initRCloneBind` on the processing path: linux platform,
non-empty bind list not starting with the sentinel, config file present.
The config path is registered and the outcome is decided by the bind
loop: a completed table is installed into `util.OS`, an aborted loop
leaves `util.OS` as it was. -/
lemma initRCloneBind_process (env : BindEnv) (s : SysState) (b0 : String)
    (rest : List String) (hos : env.goos = "linux")
    (hb : env.Binds = b0 :: rest) (hu : b0 ≠ "UNSET")
    (hcf : env.configExists = true) :
    initRCloneBind env s =
      match processBinds env.abs (b0 :: rest) [("/", Fs.osFs)] s.warnings with
      | (some table, ws) => Outcome.ok ⟨some table, some env.Config, ws⟩
      | (none, ws) => Outcome.ok ⟨s.OS, some env.Config, ws⟩ := by
  unfold initRCloneBind
  rw [hos, hb, hcf]
  simp only [ne_eq, not_true_eq_false, if_false, if_neg hu, if_true]

/-- C2: on linux, with a non-sentinel bind list and the rclone config file
present, any bind list containing an entry with no colon separator makes
the bind step abort entirely with a malformed-entry warning: the
process-wide filesystem abstraction is left exactly as it was, so no
partial table of the well-formed entries is ever installed. -/
theorem initRCloneBind_malformed_aborts (env : BindEnv) (s : SysState)
    (b0 : String) (rest : List String)
    (hos : env.goos = "linux") (hb : env.Binds = b0 :: rest)
    (hu : b0 ≠ "UNSET") (hcf : env.configExists = true)
    (hmal : ∃ kv ∈ env.Binds, hasColon kv = false) :
    ∃ s', initRCloneBind env s = Outcome.ok s' ∧ s'.OS = s.OS ∧
      ∃ kv, hasColon kv = false ∧
        Warning.malformedBind kv ∈ s'.warnings := by
  rw [hb] at hmal
  obtain ⟨hnone, kv, hckv, hw⟩ :=
    processBinds_abort env.abs (b0 :: rest) [("/", Fs.osFs)] s.warnings hmal
  rw [initRCloneBind_process env s b0 rest hos hb hu hcf]
  cases hpb : processBinds env.abs (b0 :: rest) [("/", Fs.osFs)] s.warnings with
  | mk p1 p2 =>
    rw [hpb] at hnone hw
    have hp1 : p1 = none := hnone
    subst hp1
    exact ⟨⟨s.OS, some env.Config, p2⟩, rfl, rfl, kv, hckv, hw⟩

/-- Witness for C2 on the bind list of the spec's scenario. -/
theorem initRCloneBind_malformed_aborts_witness :
    ∃ s', initRCloneBind
        ⟨"linux", "rclone.conf", ["/data:remote:mybucket", "bad-entry-no-colon"],
          true, fun p => some p⟩ ⟨none, none, []⟩ = Outcome.ok s' ∧
      s'.OS = none ∧
      ∃ kv, hasColon kv = false ∧
        Warning.malformedBind kv ∈ s'.warnings :=
  initRCloneBind_malformed_aborts _ _ "/data:remote:mybucket"
    ["bad-entry-no-colon"] rfl rfl (by decide) rfl
    ⟨"bad-entry-no-colon", by decide, by decide⟩

/-- C3: on linux with the rclone config file present, the bind list
`["/data:remote:mybucket"]` yields exactly the two-entry table — the root
`"/"` mapped to the local filesystem handle and the absolute form of
`"/data"` mapped to a remote handle built from `"remote:mybucket"` — and
installs it; the entry is split on its first colon only, so the remote
target keeps its own colon. -/
theorem initRCloneBind_single_bind_table (cfg : String)
    (abs : String → Option String) (target : String) (s : SysState)
    (habs : abs "/data" = some target) (ht : target ≠ "/") :
    initRCloneBind ⟨"linux", cfg, ["/data:remote:mybucket"], true, abs⟩ s =
      Outcome.ok ⟨some [("/", Fs.osFs), (target, Fs.rcloneFs "remote:mybucket")],
        some cfg, s.warnings⟩ := by
  have hsplit : SplitN2 "/data:remote:mybucket" = ["/data", "remote:mybucket"] := by
    decide
  have ht' : (("/" : String) == target) = false := by
    simpa using Ne.symm ht
  rw [initRCloneBind_process _ s "/data:remote:mybucket" [] rfl rfl (by decide) rfl]
  simp only [processBinds, hsplit, habs, mapInsert, List.any_cons, List.any_nil,
    ht', Bool.or_false, if_false, List.cons_append, List.nil_append]
  simp

/-- Witness for C3 with the identity-style absolute-path resolver. -/
theorem initRCloneBind_single_bind_table_witness :
    initRCloneBind
        ⟨"linux", "rclone.conf", ["/data:remote:mybucket"], true, fun p => some p⟩
        ⟨none, none, []⟩ =
      Outcome.ok ⟨some [("/", Fs.osFs), ("/data", Fs.rcloneFs "remote:mybucket")],
        some "rclone.conf", []⟩ :=
  initRCloneBind_single_bind_table "rclone.conf" (fun p => some p) "/data"
    ⟨none, none, []⟩ rfl (by decide)

/-- C4: on linux, a bind list whose first entry is the sentinel `"UNSET"`
makes `initRCloneBind` return with the state untouched: no config path is
registered, no table is installed, and the filesystem abstraction keeps
its previous default. -/
theorem initRCloneBind_unset_skips (env : BindEnv) (s : SysState)
    (rest : List String) (hos : env.goos = "linux")
    (hb : env.Binds = "UNSET" :: rest) :
    initRCloneBind env s = Outcome.ok s := by
  unfold initRCloneBind
  rw [hos, hb]
  simp

/-- Witness for C4 with the sentinel as the sole entry. -/
theorem initRCloneBind_unset_skips_witness :
    initRCloneBind ⟨"linux", "rclone.conf", ["UNSET"], true, fun p => some p⟩
      ⟨none, none, []⟩ = Outcome.ok ⟨none, none, []⟩ :=
  initRCloneBind_unset_skips _ _ [] rfl rfl

/-- C5: on the processing path, a well-formed entry whose local part fails
to resolve to an absolute path is only warned about and skipped: the loop
continues and, when every entry is well-formed, a bind table is still
installed — in contrast to a malformed entry, which aborts the whole
step. -/
theorem initRCloneBind_absFail_skips_entry (env : BindEnv) (s : SysState)
    (b0 : String) (rest : List String) (a b kv : String)
    (hos : env.goos = "linux") (hb : env.Binds = b0 :: rest)
    (hu : b0 ≠ "UNSET") (hcf : env.configExists = true)
    (hall : ∀ kv ∈ env.Binds, hasColon kv = true)
    (hkv : kv ∈ env.Binds) (hsplit : SplitN2 kv = [a, b])
    (habs : env.abs a = none) :
    ∃ s' table, initRCloneBind env s = Outcome.ok s' ∧ s'.OS = some table ∧
      Warning.absFailed a ∈ s'.warnings := by
  rw [hb] at hall hkv
  obtain ⟨t, ht⟩ :=
    processBinds_complete env.abs (b0 :: rest) [("/", Fs.osFs)] s.warnings hall
  have hwarn := processBinds_absFail env.abs (b0 :: rest) [("/", Fs.osFs)]
    s.warnings a b kv hall hkv hsplit habs
  rw [initRCloneBind_process env s b0 rest hos hb hu hcf]
  cases hpb : processBinds env.abs (b0 :: rest) [("/", Fs.osFs)] s.warnings with
  | mk p1 p2 =>
    rw [hpb] at ht hwarn
    have hp1 : p1 = some t := ht
    subst hp1
    exact ⟨⟨some t, some env.Config, p2⟩, t, rfl, rfl, hwarn⟩

/-- Witness for C5: two well-formed entries, the second one with an
unresolvable local path. -/
theorem initRCloneBind_absFail_skips_entry_witness :
    ∃ s' table, initRCloneBind
        ⟨"linux", "rclone.conf", ["/data:remote:mybucket", "/bad:remote:other"],
          true, fun p => if p = "/bad" then none else some p⟩
        ⟨none, none, []⟩ = Outcome.ok s' ∧
      s'.OS = some table ∧ Warning.absFailed "/bad" ∈ s'.warnings :=
  initRCloneBind_absFail_skips_entry _ _ "/data:remote:mybucket"
    ["/bad:remote:other"] "/bad" "remote:other" "/bad:remote:other"
    rfl rfl (by decide) rfl (by decide) (by decide) (by decide) rfl

/-- C9: on linux, `initRCloneBind` reads `Binds[0]` before any emptiness
check, so an empty bind list makes the step crash with a Go runtime panic
rather than warn or skip cleanly. -/
theorem initRCloneBind_empty_binds_crashes (env : BindEnv) (s : SysState)
    (hos : env.goos = "linux") (hb : env.Binds = []) :
    initRCloneBind env s = Outcome.crashed := by
  unfold initRCloneBind
  rw [hos, hb]
  simp

/-- Witness for C9 on a concrete environment with no binds. -/
theorem initRCloneBind_empty_binds_crashes_witness :
    initRCloneBind ⟨"linux", "rclone.conf", [], true, fun p => some p⟩
      ⟨none, none, []⟩ = Outcome.crashed :=
  initRCloneBind_empty_binds_crashes _ _ rfl rfl

/-- C10: when a malformed entry aborts the bind loop on the processing
path, the rclone config path registered before the loop persists in the
final state even though no table is installed — the abort is atomic for
the bind table only, not for the driver configuration. -/
theorem initRCloneBind_configPath_persists (env : BindEnv) (s : SysState)
    (b0 : String) (rest : List String)
    (hos : env.goos = "linux") (hb : env.Binds = b0 :: rest)
    (hu : b0 ≠ "UNSET") (hcf : env.configExists = true)
    (hmal : ∃ kv ∈ env.Binds, hasColon kv = false) :
    ∃ s', initRCloneBind env s = Outcome.ok s' ∧
      s'.rcloneConfigPath = some env.Config ∧ s'.OS = s.OS := by
  rw [hb] at hmal
  obtain ⟨hnone, -, -, -⟩ :=
    processBinds_abort env.abs (b0 :: rest) [("/", Fs.osFs)] s.warnings hmal
  rw [initRCloneBind_process env s b0 rest hos hb hu hcf]
  cases hpb : processBinds env.abs (b0 :: rest) [("/", Fs.osFs)] s.warnings with
  | mk p1 p2 =>
    rw [hpb] at hnone
    have hp1 : p1 = none := hnone
    subst hp1
    exact ⟨⟨s.OS, some env.Config, p2⟩, rfl, rfl, rfl⟩

/-- Witness for C10: malformed second entry, registration persists. -/
theorem initRCloneBind_configPath_persists_witness :
    ∃ s', initRCloneBind
        ⟨"linux", "rclone.conf", ["/data:remote:mybucket", "bad-entry-no-colon"],
          true, fun p => some p⟩ ⟨none, none, []⟩ = Outcome.ok s' ∧
      s'.rcloneConfigPath = some "rclone.conf" ∧ s'.OS = none :=
  initRCloneBind_configPath_persists _ _ "/data:remote:mybucket"
    ["bad-entry-no-colon"] rfl rfl (by decide) rfl
    ⟨"bad-entry-no-colon", by decide, by decide⟩

end Conf
